import Mathlib

/-!
Verification of the `serial_scope` frame pipeline.

The definitions below are a shallow embedding of `src/serial_scope.py`:

* `syncLoop` / `processBuf` — the resynchronization loop of `SerialThread.run`
  (lines 80–99): while the buffered length is at least `FRAME_LEN = 40`,
  if the first byte equals `0xAA` remove and emit the first 40 bytes as a
  frame, otherwise remove exactly one byte.  `syncLoop` carries an explicit
  iteration bound (each iteration removes at least one byte, so the buffer
  length is enough fuel); `processBuf` runs it with that bound.
* `feedChunks` — repeated calls of the loop on successive chunks, each call
  appending the chunk to the residual buffer of the previous call, exactly as
  `self.buffer.extend(raw)` followed by the loop does.
* `calculate_coeffs`, `coeffsOf` — the coefficient formulas (lines 25–28) and
  the stored divisor list `[nf, nf, na, na]` (lines 39–40, 69–71).
* `decodeFrame`, `fromBytesBE`, `pySlice` — the per-frame field extraction and
  scaling (lines 84–93); Python's `int.from_bytes(_, 'big')` and slicing.
* `send_structure`, `construct_packet`, `pyIntHex` — the outgoing
  configuration packet of `construct_and_send` (lines 294–303) over the
  fixed/variable grid of `init_ui` (lines 163–166, 190–209), with Python's
  `int(text, 16)` modelled on ASCII strings.
* `ScopeState`, `on_data_received`, `update_plot`, `stop_save` — the consumer
  side: the hand-off list `temp_buffer`, the four `deque(maxlen=1000)`
  channel windows, the raw-hex display and the optional save file
  (lines 106–124, 308–339, 353–360).

Machine bytes are modelled as `ℕ` (the loop and decoder only compare and
assemble them); sample values use `ℚ` in place of Python floats, so the
numeric theorems state the exact arithmetic of the formulas in the source.
-/

namespace SerialScope

/-! ### Frame synchronizer (`SerialThread.run`, lines 80–99) -/

def FRAME_LEN : ℕ := 40

def SENTINEL : ℕ := 170

/-- One run-to-exhaustion of the `while len(self.buffer) >= FRAME_LEN` loop,
with an explicit iteration bound `fuel`.  Returns the emitted frames in order
and the residual buffer. -/
def syncLoop : ℕ → List ℕ → List (List ℕ) × List ℕ
  | 0, buf => ([], buf)
  | fuel + 1, buf =>
    if FRAME_LEN ≤ buf.length then
      if buf.head? = some SENTINEL then
        let r := syncLoop fuel (buf.drop FRAME_LEN)
        (buf.take FRAME_LEN :: r.1, r.2)
      else
        syncLoop fuel (buf.drop 1)
    else ([], buf)

/-- The loop run to exhaustion: every iteration removes at least one byte, so
`buf.length` iterations always suffice. -/
def processBuf (buf : List ℕ) : List (List ℕ) × List ℕ :=
  syncLoop buf.length buf

/-- Feeding chunks one call at a time: each call extends the residual buffer
with the chunk (`self.buffer.extend(raw)`) and runs the loop to exhaustion. -/
def feedChunks : List ℕ → List (List ℕ) → List (List ℕ) × List ℕ
  | buf, [] => ([], buf)
  | buf, c :: cs =>
    let p := processBuf (buf ++ c)
    let q := feedChunks p.2 cs
    (p.1 ++ q.1, q.2)

/-! ### Coefficients (`calculate_coeffs`, lines 25–28; `update_frequency_gain`,
lines 69–72) -/

/-- `calculate_coeffs(g)`: `nf = (21 * (2 ** (6 * g + 51))) / 125.0` and
`na = 2 ** (24 + 6 * g)`.  The gain index is an integer and the values are
exact rationals. -/
def calculate_coeffs (g : ℤ) : ℚ × ℚ :=
  ((21 * (2 : ℚ) ^ (6 * g + 51)) / 125, (2 : ℚ) ^ (24 + 6 * g))

/-- The stored divisor list `self.current_coeffs = [nf, nf, na, na]`. -/
def coeffsOf (g : ℤ) : ℚ × ℚ × ℚ × ℚ :=
  ((calculate_coeffs g).1, (calculate_coeffs g).1,
    (calculate_coeffs g).2, (calculate_coeffs g).2)

/-! ### Frame decoding (`SerialThread.run`, lines 84–93) -/

/-- `int.from_bytes(l, byteorder='big', signed=False)`. -/
def fromBytesBE (l : List ℕ) : ℕ :=
  l.foldl (fun acc b => acc * 256 + b) 0

/-- Python slicing `l[a:b]` for `0 ≤ a ≤ b`. -/
def pySlice (l : List ℕ) (a b : ℕ) : List ℕ :=
  (l.take b).drop a

/-- The four unsigned big-endian fields of a frame, each divided by its
current coefficient, exactly as `run` computes `processed_data`. -/
def decodeFrame (coeffs : ℚ × ℚ × ℚ × ℚ) (frame : List ℕ) : ℚ × ℚ × ℚ × ℚ :=
  ((fromBytesBE (pySlice frame 3 14) : ℚ) / coeffs.1,
    (fromBytesBE (pySlice frame 14 25) : ℚ) / coeffs.2.1,
    (fromBytesBE (pySlice frame 25 32) : ℚ) / coeffs.2.2.1,
    (fromBytesBE (pySlice frame 32 39) : ℚ) / coeffs.2.2.2)

/-- The end-to-end test frame: `AA 00 00`, field 1 = 1 (ten zero bytes and a
final `0x01`), fields 2–4 all zero, and one trailing byte `t`. -/
def testFrame (t : ℕ) : List ℕ :=
  [170, 0, 0] ++ (List.replicate 10 0 ++ [1]) ++ List.replicate 11 0 ++
    List.replicate 7 0 ++ List.replicate 7 0 ++ [t]

/-- The first 39 bytes of `testFrame`, written out. -/
def testFramePrefix : List ℕ :=
  [170, 0, 0, 0, 0, 0, 0, 0, 0, 0, 0, 0, 0, 1,
    0, 0, 0, 0, 0, 0, 0, 0, 0, 0, 0,
    0, 0, 0, 0, 0, 0, 0,
    0, 0, 0, 0, 0, 0, 0]

/-! ### Outgoing configuration packet (`init_ui` lines 163–166 and 190–209,
`construct_and_send` lines 294–303) -/

/-- The `fixed_vals` dictionary: grid position (0-indexed) to fixed byte. -/
def fixed_vals : List (ℕ × ℕ) :=
  [(1, 0x24), (3, 0x25), (5, 0x26), (7, 0x27), (9, 0x28), (11, 0x29),
    (13, 0x2A), (15, 0x2B), (17, 0x2C), (19, 0x2D), (21, 0x2E)]

/-- `self.send_structure`: for each of the 25 grid positions, either the
fixed byte or the text of the user input widget at that position. -/
def send_structure (users : ℕ → String) : List (ℕ ⊕ String) :=
  (List.range 25).map fun i =>
    match fixed_vals.lookup i with
    | some v => Sum.inl v
    | none => Sum.inr (users i)

/-- Value of one hexadecimal digit character, if any. -/
def hexDigit? (c : Char) : Option ℕ :=
  if '0' ≤ c ∧ c ≤ '9' then some (c.toNat - 48)
  else if 'a' ≤ c ∧ c ≤ 'f' then some (c.toNat - 87)
  else if 'A' ≤ c ∧ c ≤ 'F' then some (c.toNat - 55)
  else none

/-- Accumulate the value of a run of hexadecimal digit characters; fails on
any other character. -/
def hexDigitsVal : List Char → ℕ → Option ℕ
  | [], acc => some acc
  | c :: cs, acc =>
    match hexDigit? c with
    | some d => hexDigitsVal cs (acc * 16 + d)
    | none => none

/-- Digits of a base-16 literal after the optional sign: an optional
`0x`/`0X` marker followed by at least one hexadecimal digit. -/
def parseHexBody (l : List Char) : Option ℕ :=
  match l with
  | [] => none
  | '0' :: 'x' :: ds => if ds.isEmpty then none else hexDigitsVal ds 0
  | '0' :: 'X' :: ds => if ds.isEmpty then none else hexDigitsVal ds 0
  | l => hexDigitsVal l 0

/-- Python `int(text, 16)` on an already-stripped ASCII string: an optional
sign, an optional `0x`/`0X` marker, then hexadecimal digits.  `none` models
the `ValueError` raised on anything else. -/
def pyIntHex (s : String) : Option ℤ :=
  match s.toList with
  | '+' :: rest => (parseHexBody rest).map (fun n => (n : ℤ))
  | '-' :: rest => (parseHexBody rest).map (fun n => -(n : ℤ))
  | l => (parseHexBody l).map (fun n => (n : ℤ))

/-- Python `str.strip()`: remove leading and trailing whitespace. -/
def pyStrip (s : String) : String :=
  String.mk (((s.toList.dropWhile Char.isWhitespace).reverse.dropWhile
    Char.isWhitespace).reverse)

/-- `text = item.text().strip(); val = int(text, 16) if text else 0`. -/
def fieldVal (text : String) : Option ℤ :=
  let t := pyStrip text
  if t.toList = [] then some 0 else pyIntHex t

/-- Whether one user field passes the parse and range check of
`construct_and_send`; `false` is exactly the case that raises. -/
def fieldOk (text : String) : Bool :=
  match fieldVal text with
  | some v => decide (0 ≤ v) && decide (v ≤ 255)
  | none => false

/-- One byte of the outgoing packet: fixed bytes verbatim, user fields
parsed and range-checked (`if not (0 <= val <= 255): raise ValueError`). -/
def packetByte : ℕ ⊕ String → Option ℕ
  | Sum.inl v => some v
  | Sum.inr text =>
    match fieldVal text with
    | some v => if 0 ≤ v ∧ v ≤ 255 then some v.toNat else none
    | none => none

/-- The packet-building loop of `construct_and_send`: any failure aborts the
whole packet (the `except` branch sends nothing). -/
def buildBytes : List (ℕ ⊕ String) → Option (List ℕ)
  | [] => some []
  | item :: rest =>
    match packetByte item with
    | some b =>
      match buildBytes rest with
      | some bs => some (b :: bs)
      | none => none
    | none => none

/-- `construct_and_send` up to the transport write: `some packet` is handed
to `send_data`, `none` means the error dialog and no transmission. -/
def construct_packet (users : ℕ → String) : Option (List ℕ) :=
  buildBytes (send_structure users)

/-- Modelled from the spec: "a valid hexadecimal byte in the range 0–255" —
a nonempty string of hexadecimal digits whose value is at most 255.  Used
only to compare the spec's validity notion with the code's parser. -/
def specValidHexByte (s : String) : Bool :=
  !(s.toList.isEmpty) &&
    match hexDigitsVal s.toList 0 with
    | some v => decide (v ≤ 255)
    | none => false

/-! ### Consumer tick (`MainWindow`, lines 106–124 and 308–339, 353–360) -/

/-- `self.plot_len = 1000`. -/
def plot_len : ℕ := 1000

/-- `deque(maxlen=plot_len).extend`: keep the most recent `plot_len`
values. -/
def dequeExtend (old new : List ℚ) : List ℚ :=
  (old ++ new).drop (old.length + new.length - plot_len)

/-- A decoded sample: the four scaled channel values of one frame. -/
abbrev Sample : Type := ℚ × ℚ × ℚ × ℚ

/-- The open save file: its written lines, plus a flag saying whether the
underlying resource fails writes (raising in `self.save_file.write`). -/
structure Sink where
  broken : Bool
  lines : List String
  deriving DecidableEq

/-- The consumer-side state of `MainWindow`: the hand-off list, the four
channel windows, the raw-hex display, the save flag and file, and the
console (where write failures are reported). -/
structure ScopeState where
  temp_buffer : List (Sample × List ℕ)
  data_ch1 : List ℚ
  data_ch2 : List ℚ
  data_ch3 : List ℚ
  data_ch4 : List ℚ
  raw_display : String
  is_saving : Bool
  save_file : Option Sink
  console : List String
  deriving DecidableEq

/-- `f"{b:02X}"`: uppercase hexadecimal, left-padded with `0` to width 2. -/
def fmtByte (n : ℕ) : String :=
  let s := String.mk ((Nat.toDigits 16 n).map Char.toUpper)
  if s.length < 2 then "0" ++ s else s

/-- One raw frame rendered as space-separated uppercase hex pairs. -/
def frameToHex (frame : List ℕ) : String :=
  String.intercalate " " (frame.map fmtByte)

/-- Decimal digits of a natural number. -/
def natDigitsStr (n : ℕ) : String :=
  String.mk (Nat.toDigits 10 n)

/-- `f"{q:.8f}"` for a nonnegative rational: eight digits after the point. -/
def fmt8nn (q : ℚ) : String :=
  let t : ℕ := (round (q * 100000000) : ℤ).toNat
  let frac := natDigitsStr (t % 100000000)
  natDigitsStr (t / 100000000) ++ "." ++
    String.mk (List.replicate (8 - frac.length) '0') ++ frac

/-- `f"{q:.8f}"`. -/
def fmt8 (q : ℚ) : String :=
  if q < 0 then "-" ++ fmt8nn (-q) else fmt8nn q

/-- One CSV line per decoded sample, as written by the saving loop. -/
def csvRow (s : Sample) : String :=
  fmt8 s.1 ++ ", " ++ fmt8 s.2.1 ++ ", " ++ fmt8 s.2.2.1 ++ ", " ++
    fmt8 s.2.2.2 ++ "\n"

/-- The `for row_data in new_processed: self.save_file.write(line)` loop:
a broken resource raises on the first write (`none`). -/
def writeRows (sink : Sink) : List Sample → Option Sink
  | [] => some sink
  | r :: rs =>
    if sink.broken then none
    else writeRows { sink with lines := sink.lines ++ [csvRow r] } rs

/-- `stop_save` (lines 353–360): clear the flag and close/drop the file. -/
def stop_save (st : ScopeState) : ScopeState :=
  { st with is_saving := false, save_file := none }

/-- `on_data_received` (lines 308–309): append one decoded event to the
hand-off list. -/
def on_data_received (st : ScopeState) (data : Sample) (raw : List ℕ) :
    ScopeState :=
  { st with temp_buffer := st.temp_buffer ++ [(data, raw)] }

/-- A sequence of producer pushes with no interleaved drain. -/
def pushAll (st : ScopeState) (es : List (Sample × List ℕ)) : ScopeState :=
  es.foldl (fun s e => on_data_received s e.1 e.2) st

/-- `update_plot` (lines 311–339): drain the hand-off list in one batch; if
it is empty, return unchanged; otherwise extend the four channel windows,
set the raw-hex display to the most recent 5 frames, and, when saving to an
open file, append one CSV line per drained sample — a write failure is
reported and triggers `stop_save`. -/
def update_plot (st : ScopeState) : ScopeState :=
  if st.temp_buffer = [] then st
  else
    let new_processed := st.temp_buffer.map Prod.fst
    let new_raw := st.temp_buffer.map Prod.snd
    let st1 : ScopeState :=
      { st with
        temp_buffer := [],
        data_ch1 := dequeExtend st.data_ch1 (new_processed.map fun s => s.1),
        data_ch2 := dequeExtend st.data_ch2 (new_processed.map fun s => s.2.1),
        data_ch3 := dequeExtend st.data_ch3 (new_processed.map fun s => s.2.2.1),
        data_ch4 := dequeExtend st.data_ch4 (new_processed.map fun s => s.2.2.2),
        raw_display :=
          String.intercalate "\n"
            ((new_raw.drop (new_raw.length - 5)).map frameToHex) }
    if st1.is_saving then
      match st1.save_file with
      | some sink =>
        match writeRows sink new_processed with
        | some sink2 => { st1 with save_file := some sink2 }
        | none => stop_save { st1 with console := st1.console ++ ["write failed"] }
      | none => st1
    else st1

/-- The packet `construct_and_send` actually produces when every user field
reads `"00"` (it is the same when every user field is empty, since an empty
field is treated as the value 0). -/
def allZeroPacket : List ℕ :=
  [0x00, 0x24, 0x00, 0x25, 0x00, 0x26, 0x00, 0x27, 0x00, 0x28, 0x00, 0x29,
    0x00, 0x2A, 0x00, 0x2B, 0x00, 0x2C, 0x00, 0x2D, 0x00, 0x2E, 0x00, 0x00,
    0x00]

/-- Modelled from the spec: the byte sequence `24 00 25 00 26 00 27 00 28 00
29 00 2A 00 2B 00 2C 00 2D 00 2E 00 00` that the spec quotes for the
all-zero configuration request, padded with zero bytes to 25 bytes. -/
def quotedPacketPadded : List ℕ :=
  [0x24, 0x00, 0x25, 0x00, 0x26, 0x00, 0x27, 0x00, 0x28, 0x00, 0x29, 0x00,
    0x2A, 0x00, 0x2B, 0x00, 0x2C, 0x00, 0x2D, 0x00, 0x2E, 0x00, 0x00] ++
    [0x00, 0x00]

/-- A minimal consumer state with nothing pending: a concrete test vector. -/
def stEmpty : ScopeState :=
  { temp_buffer := [], data_ch1 := [], data_ch2 := [], data_ch3 := [],
    data_ch4 := [], raw_display := "", is_saving := false, save_file := none,
    console := [] }

/-- A concrete consumer state that is saving to a failing resource and has
one decoded event pending. -/
def stBroken : ScopeState :=
  { temp_buffer := [((1, 0, 0, 0), [170])], data_ch1 := [], data_ch2 := [],
    data_ch3 := [], data_ch4 := [], raw_display := "", is_saving := true,
    save_file := some { broken := true, lines := [] }, console := [] }

/-- A concrete consumer state with seven pending raw frames. -/
def stSeven : ScopeState :=
  { temp_buffer :=
      [((0, 0, 0, 0), [1]), ((0, 0, 0, 0), [2]), ((0, 0, 0, 0), [3]),
        ((0, 0, 0, 0), [4]), ((0, 0, 0, 0), [5]), ((0, 0, 0, 0), [6]),
        ((0, 0, 0, 0), [7])],
    data_ch1 := [], data_ch2 := [], data_ch3 := [], data_ch4 := [],
    raw_display := "", is_saving := false, save_file := none, console := [] }

theorem syncLoop_fuel_irrel (fuel₁ : ℕ) :
    ∀ (fuel₂ : ℕ) (buf : List ℕ), buf.length ≤ fuel₁ → buf.length ≤ fuel₂ →
      syncLoop fuel₁ buf = syncLoop fuel₂ buf := by
  induction fuel₁ with
  | zero =>
    intro fuel₂ buf h1 _
    have hb : buf = [] := List.length_eq_zero.mp (Nat.le_zero.mp h1)
    subst hb
    cases fuel₂ with
    | zero => rfl
    | succ g => simp [syncLoop, FRAME_LEN]
  | succ f ih =>
    intro fuel₂ buf h1 h2
    have h40 : FRAME_LEN = 40 := rfl
    cases fuel₂ with
    | zero =>
      have hb : buf = [] := List.length_eq_zero.mp (Nat.le_zero.mp h2)
      subst hb
      simp [syncLoop, FRAME_LEN]
    | succ g =>
      by_cases hlen : FRAME_LEN ≤ buf.length
      · by_cases hhd : buf.head? = some SENTINEL
        · have hd : (buf.drop FRAME_LEN).length ≤ f := by
            simp only [List.length_drop]; omega
          have hd2 : (buf.drop FRAME_LEN).length ≤ g := by
            simp only [List.length_drop]; omega
          simp only [syncLoop, if_pos hlen, if_pos hhd]
          rw [ih g (buf.drop FRAME_LEN) hd hd2]
        · have hd : (buf.drop 1).length ≤ f := by
            simp only [List.length_drop]; omega
          have hd2 : (buf.drop 1).length ≤ g := by
            simp only [List.length_drop]; omega
          simp only [syncLoop, if_pos hlen, if_neg hhd]
          exact ih g (buf.drop 1) hd hd2
      · simp only [syncLoop, if_neg hlen]

theorem syncLoop_eq_processBuf {fuel : ℕ} {buf : List ℕ} (h : buf.length ≤ fuel) :
    syncLoop fuel buf = processBuf buf :=
  syncLoop_fuel_irrel fuel buf.length buf h le_rfl

/-- The loop, phrased as a single unfolding of `processBuf`. -/
theorem processBuf_eq (buf : List ℕ) :
    processBuf buf =
      if FRAME_LEN ≤ buf.length then
        if buf.head? = some SENTINEL then
          ((buf.take FRAME_LEN) :: (processBuf (buf.drop FRAME_LEN)).1,
            (processBuf (buf.drop FRAME_LEN)).2)
        else
          processBuf (buf.drop 1)
      else ([], buf) := by
  have h40 : FRAME_LEN = 40 := rfl
  by_cases hlen : FRAME_LEN ≤ buf.length
  · obtain ⟨m, hm⟩ : ∃ m, buf.length = m + 1 :=
      ⟨buf.length - 1, by omega⟩
    have hstep : processBuf buf = syncLoop (m + 1) buf := by
      rw [processBuf, hm]
    rw [hstep, if_pos hlen]
    by_cases hhd : buf.head? = some SENTINEL
    · have hd : (buf.drop FRAME_LEN).length ≤ m := by
        simp only [List.length_drop]; omega
      simp only [syncLoop, if_pos hlen, if_pos hhd]
      rw [syncLoop_eq_processBuf hd]
    · have hd : (buf.drop 1).length ≤ m := by
        simp only [List.length_drop]; omega
      simp only [syncLoop, if_pos hlen, if_neg hhd]
      rw [syncLoop_eq_processBuf hd]
  · rw [if_neg hlen]
    cases buf with
    | nil => rfl
    | cons b t =>
      simp only [List.length_cons] at hlen
      simp only [processBuf, List.length_cons, syncLoop, if_neg hlen]

theorem processBuf_of_short {buf : List ℕ} (h : buf.length < FRAME_LEN) :
    processBuf buf = ([], buf) := by
  rw [processBuf_eq, if_neg (not_le.mpr h)]

/-- The residual buffer left by the loop always holds fewer than
`FRAME_LEN` bytes. -/
theorem processBuf_residual_lt (buf : List ℕ) :
    (processBuf buf).2.length < FRAME_LEN := by
  have h40 : FRAME_LEN = 40 := rfl
  have key : ∀ (n : ℕ) (buf : List ℕ), buf.length ≤ n →
      (processBuf buf).2.length < FRAME_LEN := by
    intro n
    induction n with
    | zero =>
      intro buf hb
      rw [processBuf_of_short (by omega)]
      show buf.length < FRAME_LEN
      omega
    | succ m ih =>
      intro buf hb
      rw [processBuf_eq]
      by_cases hlen : FRAME_LEN ≤ buf.length
      · by_cases hhd : buf.head? = some SENTINEL
        · rw [if_pos hlen, if_pos hhd]
          exact ih (buf.drop FRAME_LEN) (by simp only [List.length_drop]; omega)
        · rw [if_pos hlen, if_neg hhd]
          exact ih (buf.drop 1) (by simp only [List.length_drop]; omega)
      · rw [if_neg hlen]
        exact not_le.mp hlen
  exact key buf.length buf le_rfl

/-- The residual buffer is a suffix of the input buffer: pending bytes are
kept verbatim for the next call. -/
theorem processBuf_residual_suffix (buf : List ℕ) :
    (processBuf buf).2 <:+ buf := by
  have h40 : FRAME_LEN = 40 := rfl
  have key : ∀ (n : ℕ) (buf : List ℕ), buf.length ≤ n →
      (processBuf buf).2 <:+ buf := by
    intro n
    induction n with
    | zero =>
      intro buf hb
      rw [processBuf_of_short (by omega)]
    | succ m ih =>
      intro buf hb
      rw [processBuf_eq]
      by_cases hlen : FRAME_LEN ≤ buf.length
      · by_cases hhd : buf.head? = some SENTINEL
        · rw [if_pos hlen, if_pos hhd]
          exact (ih (buf.drop FRAME_LEN)
            (by simp only [List.length_drop]; omega)).trans
            (List.drop_suffix _ _)
        · rw [if_pos hlen, if_neg hhd]
          exact (ih (buf.drop 1)
            (by simp only [List.length_drop]; omega)).trans
            (List.drop_suffix _ _)
      · rw [if_neg hlen]
  exact key buf.length buf le_rfl

/-- Every frame the loop emits has length exactly `FRAME_LEN` and starts with
the sentinel byte. -/
theorem processBuf_frames_ok (buf : List ℕ) :
    ∀ f ∈ (processBuf buf).1, f.length = FRAME_LEN ∧ f.head? = some SENTINEL := by
  have h40 : FRAME_LEN = 40 := rfl
  have key : ∀ (n : ℕ) (buf : List ℕ), buf.length ≤ n →
      ∀ f ∈ (processBuf buf).1, f.length = FRAME_LEN ∧ f.head? = some SENTINEL := by
    intro n
    induction n with
    | zero =>
      intro buf hb f hf
      rw [processBuf_of_short (by omega)] at hf
      exact absurd hf (List.not_mem_nil f)
    | succ m ih =>
      intro buf hb
      rw [processBuf_eq]
      by_cases hlen : FRAME_LEN ≤ buf.length
      · by_cases hhd : buf.head? = some SENTINEL
        · rw [if_pos hlen, if_pos hhd]
          intro f hf
          rcases List.mem_cons.mp hf with hf | hf
          · subst hf
            refine ⟨List.length_take_of_le hlen, ?_⟩
            cases buf with
            | nil => simp [FRAME_LEN] at hlen
            | cons b t =>
              simp only [List.head?_cons, Option.some.injEq] at hhd
              subst hhd
              rfl
          · exact ih (buf.drop FRAME_LEN)
              (by simp only [List.length_drop]; omega) f hf
        · rw [if_pos hlen, if_neg hhd]
          exact ih (buf.drop 1) (by simp only [List.length_drop]; omega)
      · rw [if_neg hlen]
        intro f hf
        exact absurd hf (List.not_mem_nil f)
  exact key buf.length buf le_rfl

/-- A stream with no sentinel byte never produces a frame. -/
theorem processBuf_no_sentinel {buf : List ℕ}
    (h : ∀ b ∈ buf, b ≠ SENTINEL) : (processBuf buf).1 = [] := by
  have h40 : FRAME_LEN = 40 := rfl
  have key : ∀ (n : ℕ) (buf : List ℕ), buf.length ≤ n →
      (∀ b ∈ buf, b ≠ SENTINEL) → (processBuf buf).1 = [] := by
    intro n
    induction n with
    | zero =>
      intro buf hb _
      rw [processBuf_of_short (by omega)]
    | succ m ih =>
      intro buf hb h
      rw [processBuf_eq]
      by_cases hlen : FRAME_LEN ≤ buf.length
      · have hhd : ¬ buf.head? = some SENTINEL := by
          cases buf with
          | nil => simp
          | cons b t =>
            simp only [List.head?_cons, Option.some.injEq]
            exact h b (List.mem_cons_self b t)
        rw [if_pos hlen, if_neg hhd]
        exact ih (buf.drop 1) (by simp only [List.length_drop]; omega)
          (fun b hb => h b (List.mem_of_mem_drop hb))
      · rw [if_neg hlen]
  exact key buf.length buf le_rfl h

/-- Processing `buf ++ more` first takes exactly the steps taken on `buf`
alone, then continues on the residual of `buf` followed by `more`. -/
theorem processBuf_append (buf more : List ℕ) :
    processBuf (buf ++ more) =
      ((processBuf buf).1 ++ (processBuf ((processBuf buf).2 ++ more)).1,
        (processBuf ((processBuf buf).2 ++ more)).2) := by
  have h40 : FRAME_LEN = 40 := rfl
  have key : ∀ (n : ℕ) (buf more : List ℕ), buf.length ≤ n →
      processBuf (buf ++ more) =
        ((processBuf buf).1 ++ (processBuf ((processBuf buf).2 ++ more)).1,
          (processBuf ((processBuf buf).2 ++ more)).2) := by
    intro n
    induction n with
    | zero =>
      intro buf more hb
      have hbuf : buf = [] := List.length_eq_zero.mp (Nat.le_zero.mp hb)
      subst hbuf
      simp only [List.nil_append]
      rw [show processBuf ([] : List ℕ) = ([], []) from rfl]
      simp
    | succ m ih =>
      intro buf more hb
      by_cases hlen : FRAME_LEN ≤ buf.length
      · have hlen2 : FRAME_LEN ≤ (buf ++ more).length := by
          simp only [List.length_append]; omega
        have hne : buf ≠ [] := by
          intro hbnil; subst hbnil; simp at hlen; omega
        have hhd2 : (buf ++ more).head? = buf.head? := by
          cases buf with
          | nil => exact absurd rfl hne
          | cons b t => rfl
        by_cases hhd : buf.head? = some SENTINEL
        · have htake : (buf ++ more).take FRAME_LEN = buf.take FRAME_LEN :=
            List.take_append_of_le_length hlen
          have hdrop : (buf ++ more).drop FRAME_LEN = buf.drop FRAME_LEN ++ more :=
            List.drop_append_of_le_length hlen
          rw [processBuf_eq (buf ++ more), if_pos hlen2, hhd2, if_pos hhd,
            htake, hdrop,
            ih (buf.drop FRAME_LEN) more (by simp only [List.length_drop]; omega)]
          rw [processBuf_eq buf, if_pos hlen, if_pos hhd]
          simp
        · have hdrop : (buf ++ more).drop 1 = buf.drop 1 ++ more :=
            List.drop_append_of_le_length (by omega)
          rw [processBuf_eq (buf ++ more), if_pos hlen2, hhd2, if_neg hhd, hdrop,
            ih (buf.drop 1) more (by simp only [List.length_drop]; omega)]
          rw [processBuf_eq buf, if_pos hlen, if_neg hhd]
      · rw [processBuf_of_short (not_le.mp hlen)]
        simp
  exact key buf.length buf more le_rfl

/-- Incremental feeding with a short (quiescent) starting buffer equals one
shot on the concatenation. -/
theorem feedChunks_eq_processBuf {buf : List ℕ} (h : buf.length < FRAME_LEN)
    (chunks : List (List ℕ)) :
    feedChunks buf chunks = processBuf (buf ++ chunks.flatten) := by
  induction chunks generalizing buf with
  | nil =>
    simp only [feedChunks, List.flatten_nil, List.append_nil]
    rw [processBuf_of_short h]
  | cons c cs ih =>
    simp only [feedChunks, List.flatten_cons]
    rw [ih (processBuf_residual_lt (buf ++ c)), ← List.append_assoc,
      processBuf_append (buf ++ c) cs.flatten]

/-! ### Claim C1 — chunk-boundary independence -/

/-- C1: for every byte stream and every way of splitting it into chunks,
feeding the chunks one at a time to the frame synchronizer (append to the
internal buffer, then run the loop to exhaustion) emits the same sequence of
frames, in the same order, as feeding the entire stream in a single call. -/
theorem c1_chunk_boundary_independence (chunks : List (List ℕ)) :
    (feedChunks [] chunks).1 = (feedChunks [] [chunks.flatten]).1
    ∧ (feedChunks [] chunks).1 = (processBuf chunks.flatten).1 := by
  have h : ([] : List ℕ).length < FRAME_LEN := by simp [FRAME_LEN]
  have h2 : feedChunks [] chunks = processBuf chunks.flatten := by
    rw [feedChunks_eq_processBuf h chunks, List.nil_append]
  have h3 : feedChunks [] [chunks.flatten] = processBuf chunks.flatten := by
    rw [feedChunks_eq_processBuf h [chunks.flatten], List.nil_append]
    simp
  rw [h2, h3]
  exact ⟨rfl, rfl⟩

/-! ### Claim C3 — no sentinel, no frame; emitted frames are well-formed -/

/-- C3: a stream with no `0xAA` byte yields no frame at all, however it is
chunked; and every frame the synchronizer ever yields has length exactly 40
with first byte `0xAA`, so no malformed candidate is promoted to a frame. -/
theorem c3_sentinel_invariants (chunks : List (List ℕ)) :
    ((∀ b ∈ chunks.flatten, b ≠ SENTINEL) → (feedChunks [] chunks).1 = [])
    ∧ (∀ f ∈ (feedChunks [] chunks).1,
        f.length = FRAME_LEN ∧ f.head? = some SENTINEL) := by
  have h : ([] : List ℕ).length < FRAME_LEN := by simp [FRAME_LEN]
  rw [feedChunks_eq_processBuf h chunks, List.nil_append]
  exact ⟨fun hn => processBuf_no_sentinel hn, processBuf_frames_ok _⟩

/-- Witness for C3 at a concrete sentinel-free stream longer than one
frame. -/
theorem c3_sentinel_invariants_witness :
    (feedChunks [] [List.replicate 50 7]).1 = [] :=
  (c3_sentinel_invariants [List.replicate 50 7]).1 (by decide)

/-! ### Claim C10 — termination and residual-buffer invariants -/

/-- C10: the per-call loop terminates within `buf.length` iterations (any
fuel of at least the buffer length gives the run-to-exhaustion result); after
every call the residual buffer holds strictly fewer than 40 bytes and is a
suffix of the input, preserved unchanged as the prefix of the next call — so
no partial frame (every emitted frame has length 40) and no pending byte is
lost between calls. -/
theorem c10_termination_and_residual (buf more : List ℕ) (fuel : ℕ) :
    (buf.length ≤ fuel → syncLoop fuel buf = processBuf buf)
    ∧ (processBuf buf).2.length < FRAME_LEN
    ∧ (processBuf buf).2 <:+ buf
    ∧ (∀ f ∈ (processBuf buf).1, f.length = FRAME_LEN)
    ∧ (processBuf (buf ++ more)).1 =
        (processBuf buf).1 ++ (processBuf ((processBuf buf).2 ++ more)).1 := by
  refine ⟨fun h => syncLoop_eq_processBuf h, processBuf_residual_lt buf,
    processBuf_residual_suffix buf,
    fun f hf => (processBuf_frames_ok buf f hf).1, ?_⟩
  rw [processBuf_append buf more]

/-- Witness for C10 on a buffer holding one full frame and a two-byte
remainder. -/
theorem c10_termination_and_residual_witness :
    syncLoop 43 (170 :: List.replicate 42 1) = processBuf (170 :: List.replicate 42 1)
    ∧ (processBuf (170 :: List.replicate 42 1)).2.length < FRAME_LEN
    ∧ (processBuf (170 :: List.replicate 42 1)).2 <:+ 170 :: List.replicate 42 1
    ∧ (∀ f ∈ (processBuf (170 :: List.replicate 42 1)).1, f.length = FRAME_LEN)
    ∧ (processBuf ((170 :: List.replicate 42 1) ++ [3])).1 =
        (processBuf (170 :: List.replicate 42 1)).1 ++
          (processBuf ((processBuf (170 :: List.replicate 42 1)).2 ++ [3])).1 :=
  ⟨(c10_termination_and_residual (170 :: List.replicate 42 1) [3] 43).1 (by decide),
    (c10_termination_and_residual (170 :: List.replicate 42 1) [3] 43).2.1,
    (c10_termination_and_residual (170 :: List.replicate 42 1) [3] 43).2.2.1,
    (c10_termination_and_residual (170 :: List.replicate 42 1) [3] 43).2.2.2.1,
    (c10_termination_and_residual (170 :: List.replicate 42 1) [3] 43).2.2.2.2⟩

/-! ### Claim C2 — field extraction and the end-to-end test frame -/

theorem pySlice_append_left (l m : List ℕ) (a b : ℕ) (hb : b ≤ l.length) :
    pySlice (l ++ m) a b = pySlice l a b := by
  rw [pySlice, pySlice, List.take_append_of_le_length hb]

/-- C2: the decoder reads four unsigned big-endian integers from the byte
ranges `[3,14)`, `[14,25)`, `[25,32)`, `[32,39)` (offsets 3/14/25/32 with
lengths 11/11/7/7) and divides them by `(nf g, nf g, na g, na g)`; on the
test frame (field 1 = 1, fields 2–4 = 0, any trailing byte) with `g = 0` it
yields `(1/nf(0), 0, 0, 0)`, where `nf(0) = 21·2^51/125` and
`na(0) = 2^24`. -/
theorem c2_decode_fields_and_test_frame :
    (∀ (g : ℤ) (frame : List ℕ),
      decodeFrame (coeffsOf g) frame =
        ((fromBytesBE ((frame.drop 3).take 11) : ℚ) / (calculate_coeffs g).1,
          (fromBytesBE ((frame.drop 14).take 11) : ℚ) / (calculate_coeffs g).1,
          (fromBytesBE ((frame.drop 25).take 7) : ℚ) / (calculate_coeffs g).2,
          (fromBytesBE ((frame.drop 32).take 7) : ℚ) / (calculate_coeffs g).2))
    ∧ (∀ t : ℕ, decodeFrame (coeffsOf 0) (testFrame t) =
        (1 / (calculate_coeffs 0).1, 0, 0, 0))
    ∧ (calculate_coeffs 0).1 = 21 * 2 ^ 51 / 125
    ∧ (calculate_coeffs 0).2 = 2 ^ 24 := by
  refine ⟨?_, ?_, ?_, ?_⟩
  · intro g frame
    rw [decodeFrame, coeffsOf, pySlice, pySlice, pySlice, pySlice,
      List.drop_take, List.drop_take, List.drop_take, List.drop_take]
  · intro t
    have htf : testFrame t = testFramePrefix ++ [t] := rfl
    have h1 : fromBytesBE (pySlice testFramePrefix 3 14) = 1 := by decide
    have h2 : fromBytesBE (pySlice testFramePrefix 14 25) = 0 := by decide
    have h3 : fromBytesBE (pySlice testFramePrefix 25 32) = 0 := by decide
    have h4 : fromBytesBE (pySlice testFramePrefix 32 39) = 0 := by decide
    rw [decodeFrame, htf,
      pySlice_append_left _ _ _ _ (by decide),
      pySlice_append_left _ _ _ _ (by decide),
      pySlice_append_left _ _ _ _ (by decide),
      pySlice_append_left _ _ _ _ (by decide),
      h1, h2, h3, h4]
    norm_num [coeffsOf]
  · norm_num [calculate_coeffs]
  · norm_num [calculate_coeffs]

/-! ### Claim C7 — coefficient formulas, tuple layout, positivity, scaling -/

/-- C7: for every gain index `g` in `{0,1,2,3}` the computed coefficients
are `nf(g) = 21·2^(6g+51)/125` and `na(g) = 2^(24+6g)`; the stored divisor
tuple is `(nf, nf, na, na)` (channels 1–2 scale by `nf`, channels 3–4 by
`na`); both are positive; and the exponential-scaling relations
`nf(g) = nf(g-1)·64` and `na(g) = na(g-1)·64` hold (with `g-1` the integer
predecessor, as in the Python formulas, which are defined for any integer
gain index). -/
theorem c7_coefficients (g : ℤ) (h0 : 0 ≤ g) (h3 : g ≤ 3) :
    (calculate_coeffs g).1 = 21 * (2 : ℚ) ^ (6 * g + 51) / 125
    ∧ (calculate_coeffs g).2 = (2 : ℚ) ^ (24 + 6 * g)
    ∧ coeffsOf g = ((calculate_coeffs g).1, (calculate_coeffs g).1,
        (calculate_coeffs g).2, (calculate_coeffs g).2)
    ∧ 0 < (calculate_coeffs g).1
    ∧ 0 < (calculate_coeffs g).2
    ∧ (calculate_coeffs g).1 = (calculate_coeffs (g - 1)).1 * 64
    ∧ (calculate_coeffs g).2 = (calculate_coeffs (g - 1)).2 * 64 := by
  have h2 : (2 : ℚ) ≠ 0 := by norm_num
  have hsplit1 : (6 * g + 51 : ℤ) = (6 * (g - 1) + 51) + 6 := by ring
  have hsplit2 : (24 + 6 * g : ℤ) = (24 + 6 * (g - 1)) + 6 := by ring
  refine ⟨rfl, rfl, rfl, ?_, ?_, ?_, ?_⟩
  · rw [calculate_coeffs]
    positivity
  · rw [calculate_coeffs]
    positivity
  · rw [calculate_coeffs, calculate_coeffs]
    simp only [hsplit1, zpow_add₀ h2]
    ring_nf
  · rw [calculate_coeffs, calculate_coeffs]
    simp only [hsplit2, zpow_add₀ h2]
    norm_num

/-- Witness for C7 at `g = 1`. -/
theorem c7_coefficients_witness :
    (calculate_coeffs 1).1 = 21 * (2 : ℚ) ^ (6 * (1 : ℤ) + 51) / 125
    ∧ (calculate_coeffs 1).2 = (2 : ℚ) ^ (24 + 6 * (1 : ℤ))
    ∧ coeffsOf 1 = ((calculate_coeffs 1).1, (calculate_coeffs 1).1,
        (calculate_coeffs 1).2, (calculate_coeffs 1).2)
    ∧ 0 < (calculate_coeffs 1).1
    ∧ 0 < (calculate_coeffs 1).2
    ∧ (calculate_coeffs 1).1 = (calculate_coeffs (1 - 1)).1 * 64
    ∧ (calculate_coeffs 1).2 = (calculate_coeffs (1 - 1)).2 * 64 :=
  c7_coefficients 1 (by norm_num) (by norm_num)

/-! ### Claim C4 — the all-zero configuration packet -/

/-- C4 counterexample: with every user field `"00"` the code produces
`allZeroPacket`, whose first byte is the user byte `0x00` — not the quoted
sequence `24 00 25 ... 2E 00 00` padded to 25 bytes, which starts with the
fixed byte `0x24` at position 0. -/
theorem c4_counterexample :
    construct_packet (fun _ => "00") = some allZeroPacket
    ∧ allZeroPacket ≠ quotedPacketPadded :=
  ⟨by decide, by decide⟩

/-- C4 (amended): building the packet with every user field `"00"` produces
exactly `00 24 00 25 00 26 00 27 00 28 00 29 00 2A 00 2B 00 2C 00 2D 00 2E
00 00 00` (25 bytes), with the fixed bytes `0x24`–`0x2E` placed sequentially
at the 0-indexed positions 1, 3, ..., 21 and user-supplied bytes at all
other positions. -/
theorem c4_amended_packet :
    construct_packet (fun _ => "00") = some allZeroPacket
    ∧ allZeroPacket.length = 25
    ∧ (∀ k : ℕ, k < 11 → allZeroPacket[2 * k + 1]? = some (0x24 + k))
    ∧ (∀ i : ℕ, i < 25 → (∀ k : ℕ, k < 11 → i ≠ 2 * k + 1) →
        allZeroPacket[i]? = some 0) :=
  ⟨by decide, by decide, by decide, by decide⟩

/-- Witness for C4 at position 1 (a fixed byte) and position 0 (a user
byte). -/
theorem c4_amended_packet_witness :
    allZeroPacket[2 * 0 + 1]? = some (0x24 + 0)
    ∧ allZeroPacket[0]? = some 0 :=
  ⟨c4_amended_packet.2.2.1 0 (by decide),
    c4_amended_packet.2.2.2 0 (by decide) (by decide)⟩

/-! ### Claim C5 — malformed configuration input -/

/-- C5 counterexample: the empty field text is not a valid hexadecimal byte,
yet `construct_and_send` does not reject it — it coerces it to `0x00`
(`val = int(text, 16) if text else 0`) and transmits a full packet. -/
theorem c5_counterexample :
    specValidHexByte "" = false
    ∧ construct_packet (fun _ => "") = some allZeroPacket :=
  ⟨by decide, by decide⟩

theorem packetByte_none_of_bad {t : String} (h : fieldOk t = false) :
    packetByte (Sum.inr t) = none := by
  cases hv : fieldVal t with
  | none => simp [packetByte, hv]
  | some v =>
    unfold fieldOk at h
    rw [hv] at h
    have hnot : ¬ (0 ≤ v ∧ v ≤ 255) := by
      rintro ⟨ha, hb⟩
      simp [ha, hb] at h
    simp [packetByte, hv, hnot]

theorem buildBytes_none_of_mem {l : List (ℕ ⊕ String)} {item : ℕ ⊕ String}
    (hm : item ∈ l) (hn : packetByte item = none) : buildBytes l = none := by
  induction l with
  | nil => exact absurd hm (List.not_mem_nil item)
  | cons a rest ih =>
    rcases List.mem_cons.mp hm with h | h
    · subst h
      simp [buildBytes, hn]
    · cases ha : packetByte a with
      | none => simp [buildBytes, ha]
      | some b => simp [buildBytes, ha, ih h]

/-- C5 (amended): if any user field's stripped text is nonempty and does not
parse as an (optionally signed) hexadecimal integer in 0–255, the whole
packet is rejected before transmission — `construct_packet` returns `none`,
so no bytes (in particular no partial packet) reach the transport.  An
empty or whitespace-only field, however, is coerced to `0x00` rather than
rejected. -/
theorem c5_amended_reject (users : ℕ → String) (i : ℕ) (hi : i < 25)
    (hfree : fixed_vals.lookup i = none) (hbad : fieldOk (users i) = false) :
    construct_packet users = none := by
  have hmem : Sum.inr (users i) ∈ send_structure users := by
    rw [send_structure]
    refine List.mem_map.mpr ⟨i, List.mem_range.mpr hi, ?_⟩
    rw [hfree]
  exact buildBytes_none_of_mem hmem (packetByte_none_of_bad hbad)

/-- Witness for C5: a non-hex field text rejects the whole packet. -/
theorem c5_amended_reject_witness :
    construct_packet (fun _ => "zz") = none :=
  c5_amended_reject (fun _ => "zz") 0 (by decide) (by decide) (by decide)

/-! ### Consumer-tick lemmas -/

theorem pushAll_temp_buffer (es : List (Sample × List ℕ)) :
    ∀ st : ScopeState, (pushAll st es).temp_buffer = st.temp_buffer ++ es := by
  induction es with
  | nil =>
    intro st
    simp [pushAll]
  | cons e rest ih =>
    intro st
    rw [show pushAll st (e :: rest) = pushAll (on_data_received st e.1 e.2) rest
        from rfl, ih]
    simp [on_data_received]

theorem update_plot_temp_buffer (st : ScopeState) :
    (update_plot st).temp_buffer = [] := by
  unfold update_plot
  split
  · next h => rw [h]
  · dsimp only
    split
    · split
      · split
        · rfl
        · rfl
      · rfl
    · rfl

theorem update_plot_noop (st : ScopeState) (h : st.temp_buffer = []) :
    update_plot st = st := by
  unfold update_plot
  rw [if_pos h]

set_option maxRecDepth 8000 in
theorem update_plot_visual (st : ScopeState) (hne : st.temp_buffer ≠ []) :
    (update_plot st).data_ch1 =
      dequeExtend st.data_ch1 ((st.temp_buffer.map Prod.fst).map fun s => s.1)
    ∧ (update_plot st).data_ch2 =
      dequeExtend st.data_ch2 ((st.temp_buffer.map Prod.fst).map fun s => s.2.1)
    ∧ (update_plot st).data_ch3 =
      dequeExtend st.data_ch3 ((st.temp_buffer.map Prod.fst).map fun s => s.2.2.1)
    ∧ (update_plot st).data_ch4 =
      dequeExtend st.data_ch4 ((st.temp_buffer.map Prod.fst).map fun s => s.2.2.2)
    ∧ (update_plot st).raw_display =
      String.intercalate "\n"
        (((st.temp_buffer.map Prod.snd).drop
          ((st.temp_buffer.map Prod.snd).length - 5)).map frameToHex) := by
  unfold update_plot
  rw [if_neg hne]
  dsimp only
  split
  · split
    · split
      · exact ⟨rfl, rfl, rfl, rfl, rfl⟩
      · exact ⟨rfl, rfl, rfl, rfl, rfl⟩
    · exact ⟨rfl, rfl, rfl, rfl, rfl⟩
  · exact ⟨rfl, rfl, rfl, rfl, rfl⟩

theorem update_plot_not_saving (st : ScopeState) (h : st.is_saving = false) :
    (update_plot st).is_saving = false
    ∧ (update_plot st).save_file = st.save_file
    ∧ (update_plot st).console = st.console := by
  unfold update_plot
  split
  · exact ⟨h, rfl, rfl⟩
  · dsimp only
    rw [if_neg (show ¬ st.is_saving = true by simp [h])]
    exact ⟨h, rfl, rfl⟩

theorem writeRows_broken {sink : Sink} (hb : sink.broken = true)
    {rows : List Sample} (hne : rows ≠ []) : writeRows sink rows = none := by
  cases rows with
  | nil => exact absurd rfl hne
  | cons r rs => simp [writeRows, hb]

theorem update_plot_broken_sink (st : ScopeState) (sink : Sink)
    (hsave : st.is_saving = true) (hfile : st.save_file = some sink)
    (hbroken : sink.broken = true) (hne : st.temp_buffer ≠ []) :
    (update_plot st).is_saving = false
    ∧ (update_plot st).save_file = none
    ∧ (update_plot st).console = st.console ++ ["write failed"] := by
  have hrows : st.temp_buffer.map Prod.fst ≠ [] := by
    intro hmap
    exact hne (List.map_eq_nil_iff.mp hmap)
  unfold update_plot
  rw [if_neg hne]
  dsimp only
  simp only [hsave, if_true, hfile]
  rw [writeRows_broken hbroken hrows]
  exact ⟨rfl, rfl, rfl⟩

/-! ### Claim C6 — hand-off drain semantics and empty-tick no-op -/

/-- C6: pushing N decoded events with no interleaved drain leaves exactly
those N events, in push order, as the batch the next tick drains; that tick
empties the channel, so a further drain with nothing pushed in between gets
an empty batch; and a tick whose drained batch is empty changes nothing (no
buffer updates and no sink writes). -/
theorem c6_channel_drain (st : ScopeState) (es : List (Sample × List ℕ))
    (h : st.temp_buffer = []) :
    (pushAll st es).temp_buffer = es
    ∧ (update_plot (pushAll st es)).temp_buffer = []
    ∧ update_plot st = st
    ∧ update_plot (update_plot (pushAll st es)) = update_plot (pushAll st es) :=
  ⟨by rw [pushAll_temp_buffer es st, h, List.nil_append],
    update_plot_temp_buffer _,
    update_plot_noop st h,
    update_plot_noop _ (update_plot_temp_buffer _)⟩

/-- Witness for C6 on the empty state and one concrete event. -/
theorem c6_channel_drain_witness :
    (pushAll stEmpty [((1, 2, 3, 4), [170])]).temp_buffer = [((1, 2, 3, 4), [170])]
    ∧ (update_plot (pushAll stEmpty [((1, 2, 3, 4), [170])])).temp_buffer = []
    ∧ update_plot stEmpty = stEmpty
    ∧ update_plot (update_plot (pushAll stEmpty [((1, 2, 3, 4), [170])])) =
        update_plot (pushAll stEmpty [((1, 2, 3, 4), [170])]) :=
  c6_channel_drain stEmpty [((1, 2, 3, 4), [170])] rfl

/-! ### Claim C8 — sink write failure -/

/-- C8: when a tick drains a non-empty batch while saving to a broken
resource, the failure is reported (a console message), saving transitions to
the discard state (`is_saving = false`, file dropped) so later ticks do not
retry, the tick still updates the visualization buffers, and events drained
by later ticks keep updating the visualization with no further sink or
console activity. -/
theorem c8_sink_failure (st : ScopeState) (sink : Sink)
    (hsave : st.is_saving = true) (hfile : st.save_file = some sink)
    (hbroken : sink.broken = true) (hne : st.temp_buffer ≠ []) :
    (update_plot st).console = st.console ++ ["write failed"]
    ∧ (update_plot st).is_saving = false
    ∧ (update_plot st).save_file = none
    ∧ (update_plot st).data_ch1 =
        dequeExtend st.data_ch1 ((st.temp_buffer.map Prod.fst).map fun s => s.1)
    ∧ (update_plot st).data_ch2 =
        dequeExtend st.data_ch2 ((st.temp_buffer.map Prod.fst).map fun s => s.2.1)
    ∧ (update_plot st).data_ch3 =
        dequeExtend st.data_ch3 ((st.temp_buffer.map Prod.fst).map fun s => s.2.2.1)
    ∧ (update_plot st).data_ch4 =
        dequeExtend st.data_ch4 ((st.temp_buffer.map Prod.fst).map fun s => s.2.2.2)
    ∧ ∀ (d : Sample) (raw : List ℕ),
        (update_plot (on_data_received (update_plot st) d raw)).data_ch1 =
          dequeExtend (update_plot st).data_ch1 [d.1]
        ∧ (update_plot (on_data_received (update_plot st) d raw)).data_ch2 =
            dequeExtend (update_plot st).data_ch2 [d.2.1]
        ∧ (update_plot (on_data_received (update_plot st) d raw)).data_ch3 =
            dequeExtend (update_plot st).data_ch3 [d.2.2.1]
        ∧ (update_plot (on_data_received (update_plot st) d raw)).data_ch4 =
            dequeExtend (update_plot st).data_ch4 [d.2.2.2]
        ∧ (update_plot (on_data_received (update_plot st) d raw)).is_saving = false
        ∧ (update_plot (on_data_received (update_plot st) d raw)).save_file = none
        ∧ (update_plot (on_data_received (update_plot st) d raw)).console =
            (update_plot st).console := by
  obtain ⟨hs1, hs2, hs3⟩ := update_plot_broken_sink st sink hsave hfile hbroken hne
  obtain ⟨hv1, hv2, hv3, hv4, _⟩ := update_plot_visual st hne
  refine ⟨hs3, hs1, hs2, hv1, hv2, hv3, hv4, ?_⟩
  intro d raw
  have hut : (update_plot st).temp_buffer = [] := update_plot_temp_buffer st
  have hpne : (on_data_received (update_plot st) d raw).temp_buffer ≠ [] := by
    simp [on_data_received]
  have hsave2 : (on_data_received (update_plot st) d raw).is_saving = false := by
    simpa [on_data_received] using hs1
  obtain ⟨hn1, hn2, hn3⟩ :=
    update_plot_not_saving (on_data_received (update_plot st) d raw) hsave2
  obtain ⟨hw1, hw2, hw3, hw4, _⟩ :=
    update_plot_visual (on_data_received (update_plot st) d raw) hpne
  refine ⟨?_, ?_, ?_, ?_, hn1, ?_, ?_⟩
  · rw [hw1]
    simp [on_data_received, hut]
  · rw [hw2]
    simp [on_data_received, hut]
  · rw [hw3]
    simp [on_data_received, hut]
  · rw [hw4]
    simp [on_data_received, hut]
  · rw [hn2]
    simpa [on_data_received] using hs2
  · rw [hn3]
    simp [on_data_received]

/-- Witness for C8 on a concrete broken-sink state and one later event: all
four channel windows update on the failing tick and again on the next. -/
theorem c8_sink_failure_witness :
    (update_plot stBroken).console = stBroken.console ++ ["write failed"]
    ∧ (update_plot stBroken).is_saving = false
    ∧ (update_plot stBroken).save_file = none
    ∧ (update_plot stBroken).data_ch1 =
        dequeExtend stBroken.data_ch1
          ((stBroken.temp_buffer.map Prod.fst).map fun s => s.1)
    ∧ (update_plot stBroken).data_ch2 =
        dequeExtend stBroken.data_ch2
          ((stBroken.temp_buffer.map Prod.fst).map fun s => s.2.1)
    ∧ (update_plot stBroken).data_ch3 =
        dequeExtend stBroken.data_ch3
          ((stBroken.temp_buffer.map Prod.fst).map fun s => s.2.2.1)
    ∧ (update_plot stBroken).data_ch4 =
        dequeExtend stBroken.data_ch4
          ((stBroken.temp_buffer.map Prod.fst).map fun s => s.2.2.2)
    ∧ (update_plot (on_data_received (update_plot stBroken) (2, 3, 4, 5) [171])).data_ch1 =
        dequeExtend (update_plot stBroken).data_ch1 [((2, 3, 4, 5) : Sample).1]
    ∧ (update_plot (on_data_received (update_plot stBroken) (2, 3, 4, 5) [171])).data_ch2 =
        dequeExtend (update_plot stBroken).data_ch2 [((2, 3, 4, 5) : Sample).2.1]
    ∧ (update_plot (on_data_received (update_plot stBroken) (2, 3, 4, 5) [171])).data_ch3 =
        dequeExtend (update_plot stBroken).data_ch3 [((2, 3, 4, 5) : Sample).2.2.1]
    ∧ (update_plot (on_data_received (update_plot stBroken) (2, 3, 4, 5) [171])).data_ch4 =
        dequeExtend (update_plot stBroken).data_ch4 [((2, 3, 4, 5) : Sample).2.2.2] :=
  have h := c8_sink_failure stBroken { broken := true, lines := [] } rfl rfl rfl
    (by decide)
  have h2 := h.2.2.2.2.2.2.2 (2, 3, 4, 5) [171]
  ⟨h.1, h.2.1, h.2.2.1, h.2.2.2.1, h.2.2.2.2.1, h.2.2.2.2.2.1, h.2.2.2.2.2.2.1,
    h2.1, h2.2.1, h2.2.2.1, h2.2.2.2.1⟩

/-! ### Claim C9 — raw-hex display -/

/-- C9: on every tick that drains a non-empty batch, the raw-hex display is
set to the most recent 5 raw frames of the batch, each rendered as uppercase
two-digit hex pairs separated by single spaces, joined by newlines. -/
theorem c9_raw_display (st : ScopeState) (hne : st.temp_buffer ≠ []) :
    (update_plot st).raw_display =
      String.intercalate "\n"
        (((st.temp_buffer.map Prod.snd).drop (st.temp_buffer.length - 5)).map
          frameToHex)
    ∧ frameToHex [170, 11, 255] = "AA 0B FF" := by
  refine ⟨?_, by decide⟩
  rw [(update_plot_visual st hne).2.2.2.2, List.length_map]

/-- Witness for C9 on a concrete state with seven pending frames: the
display shows the formatted last five. -/
theorem c9_raw_display_witness :
    (update_plot stSeven).raw_display =
      String.intercalate "\n"
        (((stSeven.temp_buffer.map Prod.snd).drop
          (stSeven.temp_buffer.length - 5)).map frameToHex)
    ∧ (update_plot stSeven).raw_display = "03\n04\n05\n06\n07" :=
  ⟨(c9_raw_display stSeven (by decide)).1,
    ((c9_raw_display stSeven (by decide)).1).trans (by decide)⟩
